import Mathlib

/-!
Shallow embedding of the telemetry-normalization core of `src/Backend/HDDAPI/index.js`
(the AIO-Technician backend), together with proofs about the claims of its
specification.

Modelling conventions:
* JavaScript values flowing through the normalizer are modelled by `JVal`
  (JSON-like values plus `undefined`).  JS numbers are modelled as `Option ℚ`:
  `some q` is a finite number, `none` stands for the non-finite results
  (`NaN`, and the infinities, which never arise from `JSON.parse` output).
* Property access `x?.k` / guarded `x.k` is `jget` (returning `undef` when the
  receiver is not an object or lacks the key); every unguarded access in the
  source is behind a truthiness guard, so no access can throw on `null`.
* The only operations in the source that can throw inside the normalizer are the
  `.find` calls on `json?.ata_smart_attributes?.table || []` when that value is
  truthy but not an array; this is modelled by `getAttrs` returning `Except`.
* `Number(v)` is `jsToNumber`, `String(v)` is `jsToString` (decimal rendering of
  finite numbers; the exponential notation JS uses for magnitudes ≥ 1e21 is not
  modelled, and no theorem below exercises that range).
* `a === lit` comparisons with primitive literals are `isNumVal`/`isStrVal`/
  `isBoolVal`; `c == null` is `isNullish`; `a || b` is `jsOr`; `a ?? b` is
  `jsNullish`.
* `smartctl` invocations are modelled by their outcomes: an attempt either
  fails (process error or `JSON.parse` failure, collapsed into `Except.error`)
  or yields a parsed `JVal`.
* `Array.prototype.sort` with the `localeCompare` comparator is modelled as a
  stable merge sort under an arbitrary host collator on the rendered `Device`
  strings (`aggregateWith`): `localeCompare` is locale-sensitive collation, so
  the collator is a parameter, constrained only to the total, transitive weak
  ordering ECMA-402 guarantees.  The code-point instance (`aggregate`) is used
  by the claims whose conclusions do not depend on which collator the host
  provides.
-/

/-- A JavaScript value as it occurs in the normalizer's data flow: JSON values
plus `undefined`; numbers are `Option ℚ` with `none` for non-finite values. -/
inductive JVal where
  | undef : JVal
  | null : JVal
  | bool (b : Bool) : JVal
  | num (q : Option ℚ) : JVal
  | str (s : String) : JVal
  | arr (elems : List JVal) : JVal
  | obj (fields : List (String × JVal)) : JVal

/-- JS loose equality with `null` (`c == null`): true exactly for `null` and
`undefined`. -/
def isNullish : JVal → Bool
  | .null => true
  | .undef => true
  | _ => false

/-- JS truthiness.  `NaN` is falsy; every object and array is truthy. -/
def jsTruthy : JVal → Bool
  | .undef => false
  | .null => false
  | .bool b => b
  | .num none => false
  | .num (some q) => q != 0
  | .str s => s != ""
  | .arr _ => true
  | .obj _ => true

/-- Property access `v?.k` (and truthiness-guarded `v.k`): field lookup on an
object, `undefined` otherwise. -/
def jget : JVal → String → JVal
  | .obj fs, k =>
    match fs.lookup k with
    | some v => v
    | none => (.undef)
  | _, _ => (.undef)

/-- JS `a || b`. -/
def jsOr (a b : JVal) : JVal := if jsTruthy a then a else b

/-- JS `a ?? b`. -/
def jsNullish (a b : JVal) : JVal := if isNullish a then b else a

/-- JS `v === q` for a finite numeric literal `q` (`NaN` compares false). -/
def isNumVal (v : JVal) (q : ℚ) : Bool :=
  match v with
  | .num (some x) => x == q
  | _ => false

/-- JS `v === s` for a string literal `s`. -/
def isStrVal (v : JVal) (s : String) : Bool :=
  match v with
  | .str t => t == s
  | _ => false

/-- JS `v === b` for a boolean literal `b`. -/
def isBoolVal (v : JVal) (b : Bool) : Bool :=
  match v with
  | .bool c => c == b
  | _ => false

/-- Value of a list of decimal digits. -/
def digitsVal (ds : List Char) : ℕ :=
  ds.foldl (fun acc c => 10 * acc + (c.toNat - 48)) 0

/-- Decimal rendering of a rational whose denominator divides a power of ten
(the case of every finite JS number printed without an exponent); integers
render without a fractional part, as JS does. -/
def ratToJsString (q : ℚ) : String :=
  if q.den = 1 then toString q.num
  else
    match (List.range 40).find? (fun k => (|q| * (10 : ℚ) ^ k).den = 1) with
    | some k =>
      let m := (|q| * (10 : ℚ) ^ k).num.toNat
      let ip := m / 10 ^ k
      let fp := m % 10 ^ k
      let fs := toString fp
      let pad := String.mk (List.replicate (k - fs.length) '0')
      (if q < 0 then "-" else "") ++ toString ip ++ "." ++ pad ++ fs
    | none => toString q.num ++ "/" ++ toString q.den

/-- JS `String(v)`.  Arrays join their elements with commas, rendering `null`
and `undefined` elements as empty strings; plain objects render as
`[object Object]`. -/
def jsToString : JVal → String
  | .undef => "undefined"
  | .null => "null"
  | .bool true => "true"
  | .bool false => "false"
  | .num none => "NaN"
  | .num (some q) => ratToJsString q
  | .str s => s
  | .arr xs => String.intercalate "," (xs.attach.map (fun p =>
      if isNullish p.1 then "" else jsToString p.1))
  | .obj _ => "[object Object]"
decreasing_by
  have := List.sizeOf_lt_of_mem p.2
  simp only [JVal.arr.sizeOf_spec]
  omega

/-- Hexadecimal digit value, by code point: 0–9, then a–f, then A–F. -/
def hexDigitVal (c : Char) : Option ℕ :=
  let n := c.toNat
  if 48 ≤ n ∧ n ≤ 57 then some (n - 48)
  else if 97 ≤ n ∧ n ≤ 102 then some (n - 87)
  else if 65 ≤ n ∧ n ≤ 70 then some (n - 55)
  else none

/-- Radix-prefixed integer literal body (after `0x`/`0o`/`0b`), as accepted by
JS `Number`; empty or invalid digits give `NaN`. -/
def parseRadix (base : ℕ) (cs : List Char) : Option ℚ :=
  if cs.isEmpty then none
  else
    (cs.foldl
      (fun acc c =>
        match acc, hexDigitVal c with
        | some n, some d => if d < base then some (base * n + d) else none
        | _, _ => none)
      (some 0)).map (fun n => (n : ℚ))

/-- Exponent part of a decimal literal (everything after `e`/`E`); must be a
non-empty all-digit string with an optional sign. -/
def parseExpPart (cs : List Char) : Option ℤ :=
  match cs with
  | '+' :: r => if r.isEmpty || !(r.all Char.isDigit) then none else some ((digitsVal r : ℤ))
  | '-' :: r => if r.isEmpty || !(r.all Char.isDigit) then none else some (-(digitsVal r : ℤ))
  | r => if r.isEmpty || !(r.all Char.isDigit) then none else some ((digitsVal r : ℤ))

/-- Unsigned decimal literal body of JS `Number` string conversion:
`digits [. digits] [e[sign]digits]`, requiring at least one mantissa digit and
full consumption of the input; `Infinity` is non-finite, hence `none`. -/
def parseDecimalBody (cs : List Char) : Option ℚ :=
  if cs = "Infinity".data then none
  else
    let ip := cs.takeWhile Char.isDigit
    let r1 := cs.dropWhile Char.isDigit
    let fr :=
      match r1 with
      | '.' :: r => (r.takeWhile Char.isDigit, r.dropWhile Char.isDigit)
      | _ => ([], r1)
    if ip.isEmpty && fr.1.isEmpty then none
    else
      let mant : ℚ := (digitsVal (ip ++ fr.1) : ℚ) / (10 : ℚ) ^ fr.1.length
      match fr.2 with
      | [] => some mant
      | 'e' :: r => (parseExpPart r).map (fun e => mant * (10 : ℚ) ^ e)
      | 'E' :: r => (parseExpPart r).map (fun e => mant * (10 : ℚ) ^ e)
      | _ => none

/-- Signed decimal literal. -/
def parseSignedDecimal (cs : List Char) : Option ℚ :=
  match cs with
  | '+' :: r => parseDecimalBody r
  | '-' :: r => (parseDecimalBody r).map Neg.neg
  | r => parseDecimalBody r

/-- JS `Number(string)`: trimmed empty string is `0`; radix-prefixed integer
literals take no sign; otherwise a signed decimal literal; anything else is
`NaN` (`none`). -/
def parseJsNumber (s : String) : Option ℚ :=
  let t := s.trim
  if t.isEmpty then some 0
  else
    match t.data with
    | '0' :: c :: r =>
      if c = 'x' || c = 'X' then parseRadix 16 r
      else if c = 'o' || c = 'O' then parseRadix 8 r
      else if c = 'b' || c = 'B' then parseRadix 2 r
      else parseSignedDecimal t.data
    | _ => parseSignedDecimal t.data

/-- JS `Number(v)` on any value: `null` is 0, `undefined` is `NaN`, booleans are
0/1, strings parse as numeric literals, arrays and objects convert through
their string rendering. -/
def jsToNumber : JVal → Option ℚ
  | .undef => none
  | .null => some 0
  | .bool b => some (if b then 1 else 0)
  | .num o => o
  | .str s => parseJsNumber s
  | .arr xs => parseJsNumber (jsToString (.arr xs))
  | .obj fs => parseJsNumber (jsToString (.obj fs))

/-- `toNumberSafe` (index.js lines 83–86): `Number(value)` when finite,
otherwise the fallback. -/
def toNumberSafe (v : JVal) (fallback : ℚ) : ℚ :=
  (jsToNumber v).getD fallback

/-- First match of the regex "-?\d+" in a character list, as an integer. -/
def firstIntChars : List Char → Option ℤ
  | [] => none
  | c :: rest =>
    if c.isDigit then some ((digitsVal (c :: rest.takeWhile Char.isDigit) : ℤ))
    else if c = '-' then
      match rest with
      | [] => none
      | d :: _ =>
        if d.isDigit then some (-(digitsVal (rest.takeWhile Char.isDigit) : ℤ))
        else firstIntChars rest
    else firstIntChars rest

/-- The source's `parseInt` over the first "-?\d+" regex match of `String(v)`:
first signed integer substring of the string rendering of `v`; `none` models
the `NaN` result of a failed match. -/
def jsFirstInt (v : JVal) : Option ℤ :=
  firstIntChars (jsToString v).data

/-- Substring containment on character lists. -/
def strContainsAux (pat : List Char) : List Char → Bool
  | [] => pat.isPrefixOf ([] : List Char)
  | c :: rest => pat.isPrefixOf (c :: rest) || strContainsAux pat rest

/-- Substring containment on strings. -/
def strContains (s pat : String) : Bool :=
  strContainsAux pat.data s.data

/-- ASCII lower-casing. -/
def strToLower (s : String) : String :=
  String.mk (s.data.map Char.toLower)

/-- A case-insensitive alternation regex test (`/p1|p2|…/i.test(v)`), with the
JS coercion of the tested value to a string. -/
def jsRegexTestI (pats : List String) (v : JVal) : Bool :=
  pats.any (fun p => strContains (strToLower (jsToString v)) p)

/-! ## The normalizer (`summarizeSmart`, index.js lines 89–188) -/

/-- `const type = json?.device?.type || "unknown"` (line 91 and line 125). -/
def typeOf (json : JVal) : JVal :=
  jsOr (jget (jget json "device") "type") (.str "unknown")

/-- `const log = json?.nvme_smart_health_information_log || {}` (lines 99, 135). -/
def logOf (json : JVal) : JVal :=
  jsOr (jget json "nvme_smart_health_information_log") (.obj [])

/-- `const attrs = json?.ata_smart_attributes?.table || []` (lines 111, 143),
followed by the `.find` calls on it: when the table value is truthy but not an
array, `.find` is not a function and the access throws (`Except.error`);
otherwise the element list (empty for a falsy table). -/
def getAttrs (json : JVal) : Except Unit (List JVal) :=
  let t := jget (jget json "ata_smart_attributes") "table"
  if jsTruthy t then
    match t with
    | .arr xs => .ok xs
    | _ => .error ()
  else .ok []

/-- Widening of an optional integer (a `parseInt` result) to an optional JS
number. -/
def intToRatOpt : Option ℤ → Option ℚ
  | some n => some ((n : ℚ))
  | none => none

/-- The candidate loop of `extractTemperatureC` (lines 115–120): skip `null`
and `undefined` candidates, return the first whose text contains an integer. -/
def tempFromCandidates : List JVal → Option ℤ
  | [] => none
  | c :: rest =>
    if isNullish c then tempFromCandidates rest
    else
      match jsFirstInt c with
      | some n => some n
      | none => tempFromCandidates rest

/-- `a?.raw?.value` / `a?.raw?.string` where `a` is an optional attribute
(`find` result). -/
def rawOf (a : Option JVal) (k : String) : JVal :=
  jget (jget (a.getD .undef) "raw") k

/-- The attribute-id comparisons `a?.id === 194` appearing in the source. -/
def idIs (a : JVal) (n : ℚ) : Bool := isNumVal (jget a "id") n

/-- The finite numeric value of `log.temperature_sensors[0]` when
`temperature_sensors` is an array (line 105): `Array.isArray` guards the
access, and indexing an empty array gives `undefined`, hence `NaN`. -/
def sensorsFirst (json : JVal) : Option ℚ :=
  match jget (logOf json) "temperature_sensors" with
  | .arr xs => jsToNumber (xs.headD .undef)
  | _ => none

/-- `extractTemperatureC` (lines 90–124): top-level `temperature.current` if
finite; for `nvme`, the composite temperature or first temperature sensor
(Kelvin, rounded after subtracting 273); then, for any device family, the raw
value/string of vendor attributes 194 and 190; the attribute-table access can
throw (see `getAttrs`). -/
def extractTemperatureC (json : JVal) : Except Unit (Option ℚ) :=
  if jsTruthy (jget json "temperature") &&
      (jsToNumber (jget (jget json "temperature") "current")).isSome then
    .ok (jsToNumber (jget (jget json "temperature") "current"))
  else if isStrVal (typeOf json) "nvme" &&
      (jsToNumber (jget (logOf json) "composite_temperature")).isSome then
    .ok (some ((round ((jsToNumber (jget (logOf json) "composite_temperature")).getD 0 - 273) : ℤ) : ℚ))
  else if isStrVal (typeOf json) "nvme" && (sensorsFirst json).isSome then
    .ok (some ((round ((sensorsFirst json).getD 0 - 273) : ℤ) : ℚ))
  else
    match getAttrs json with
    | .error e => .error e
    | .ok attrs =>
      .ok (intToRatOpt (tempFromCandidates
          [rawOf (attrs.find? (fun a => idIs a 194)) "value",
           rawOf (attrs.find? (fun a => idIs a 194)) "string",
           rawOf (attrs.find? (fun a => idIs a 190)) "value",
           rawOf (attrs.find? (fun a => idIs a 190)) "string"]))

/-- Two-decimal rounding `Math.round(x * 100) / 100` used for `WrittenGB`. -/
def round2 (x : ℚ) : ℚ :=
  ((round (x * 100) : ℤ) : ℚ) / 100

/-- The pass/fail fallback of health derivation (lines 149–150):
`smart_status.passed === true ? 100 : passed === false ? 0 : undefined`. -/
def statusHealth (json : JVal) : Option ℚ :=
  if isBoolVal (jget (jget json "smart_status") "passed") true then some 100
  else if isBoolVal (jget (jget json "smart_status") "passed") false then some 0
  else none

/-- Predicate of the LBAs-written attribute search (line 144):
`(a?.id === 241 || a?.id === 242) && Written-regex(a?.name || "")`. -/
def lbasPred (a : JVal) : Bool :=
  (idIs a 241 || idIs a 242) && jsRegexTestI ["written"] (jsOr (jget a "name") (.str ""))

/-- Predicate of the wear/life attribute search (line 147):
`a && (a.id === 231 || a.id === 202 || a.id === 177 || WearLifePercent-regex(a.name || ""))`. -/
def lifePred (a : JVal) : Bool :=
  jsTruthy a && (idIs a 231 || idIs a 202 || idIs a 177 ||
    jsRegexTestI ["wear", "life", "percent"] (jsOr (jget a "name") (.str "")))

/-- Predicate of the backstop temperature attribute search (line 154):
`a?.id === 194 || a?.id === 190`. -/
def tempAttrPred (a : JVal) : Bool :=
  idIs a 194 || idIs a 190

/-- The non-NVMe temperature backstop (lines 153–158): first attribute with id
194 or 190, its `raw.value ?? raw.string`, integer-parsed when not nullish. -/
def ataBackstop (attrs : List JVal) : Option ℚ :=
  if isNullish (jsNullish (rawOf (attrs.find? tempAttrPred) "value")
      (rawOf (attrs.find? tempAttrPred) "string")) then none
  else intToRatOpt (jsFirstInt (jsNullish (rawOf (attrs.find? tempAttrPred) "value")
      (rawOf (attrs.find? tempAttrPred) "string")))

/-- The Canonical Drive Record produced by `summarizeSmart` (lines 161–187).
`Type` is a Lean keyword, hence the field name `Type'`.  Fields produced by
`toNumberSafe` are plain rationals; `HealthPercent` and the temperatures are
optional (`undefined` is `none`); `Model`, `Serial`, `CompositeTemperatureK`
and `CriticalWarning` are passed through as JS values. -/
structure Summary where
  Device : JVal
  Type' : JVal
  Model : JVal
  Serial : JVal
  HealthPercent : Option ℚ
  WrittenGB : ℚ
  PowerCycles : ℚ
  PowerOnHours : ℚ
  UnsafeShutdowns : ℚ
  DataUnitsRead : ℚ
  DataUnitsWritten : ℚ
  HostReadCommands : ℚ
  HostWriteCommands : ℚ
  ControllerBusyTimeMinutes : ℚ
  MediaDataIntegrityErrors : ℚ
  ErrorLogEntries : ℚ
  CompositeTemperatureK : JVal
  LiveTemperatureC : Option ℚ
  TemperatureC : Option ℚ
  CriticalWarning : JVal
  AvailableSparePercent : ℚ
  AvailableSpareThreshold : ℚ
  PercentageUsed : ℚ
  WarningTempTimeMinutes : ℚ
  CriticalTempTimeMinutes : ℚ

/-- The return object of `summarizeSmart` (lines 161–187), shared by both
family branches; `health`, `written` and `temp` are the three branch-dependent
values. -/
def baseSummary (json deviceName : JVal) (health : Option ℚ) (written : ℚ)
    (temp : Option ℚ) : Summary where
  Device := deviceName
  Type' := typeOf json
  Model := jsNullish (jget json "model_name") (jsNullish (jget json "model_family") (.str ""))
  Serial := jsNullish (jget json "serial_number") (.str "")
  HealthPercent := health
  WrittenGB := written
  PowerCycles := toNumberSafe (jget json "power_cycle_count") 0
  PowerOnHours := toNumberSafe (jget (jget json "power_on_time") "hours") 0
  UnsafeShutdowns := toNumberSafe (jget json "unsafe_shutdowns") 0
  DataUnitsRead :=
    toNumberSafe (jsOr (jget (jget json "nvme_smart_health_information_log") "data_units_read") (.num (some 0))) 0
  DataUnitsWritten :=
    toNumberSafe (jsOr (jget (jget json "nvme_smart_health_information_log") "data_units_written") (.num (some 0))) 0
  HostReadCommands :=
    toNumberSafe (jsOr (jget (jget json "nvme_smart_health_information_log") "host_reads") (.num (some 0))) 0
  HostWriteCommands :=
    toNumberSafe (jsOr (jget (jget json "nvme_smart_health_information_log") "host_writes") (.num (some 0))) 0
  ControllerBusyTimeMinutes :=
    toNumberSafe (jsOr (jget (jget json "nvme_smart_health_information_log") "controller_busy_time") (.num (some 0))) 0
  MediaDataIntegrityErrors := toNumberSafe (jget json "media_and_data_integrity_errors") 0
  ErrorLogEntries := toNumberSafe (jget json "number_of_error_information_log_entries") 0
  CompositeTemperatureK := jget (jget json "nvme_smart_health_information_log") "composite_temperature"
  LiveTemperatureC := temp
  TemperatureC := temp
  CriticalWarning := jsOr (jget (jget json "nvme_smart_health_information_log") "critical_warning") (.num (some 0))
  AvailableSparePercent := toNumberSafe (jget (jget json "nvme_smart_health_information_log") "available_spare") 0
  AvailableSpareThreshold := toNumberSafe (jget (jget json "nvme_smart_health_information_log") "available_spare_threshold") 0
  PercentageUsed := toNumberSafe (jget (jget json "nvme_smart_health_information_log") "percentage_used") 0
  WarningTempTimeMinutes := toNumberSafe (jget (jget json "nvme_smart_health_information_log") "warning_composite_temperature_time") 0
  CriticalTempTimeMinutes := toNumberSafe (jget (jget json "nvme_smart_health_information_log") "critical_composite_temperature_time") 0

/-- The `nvme` branch of `summarizeSmart` (lines 134–141): data units at
512,000 bytes each; health `max(0, 100 − percentage_used)`; the composite
temperature backstop when the extractor produced nothing. -/
def nvmeSummary (json deviceName : JVal) (t0 : Option ℚ) : Summary :=
  let writtenGB := round2 (toNumberSafe (jget (logOf json) "data_units_written") 0 * 512000 / 2 ^ 30)
  let healthPercent := some (max 0 (100 - toNumberSafe (jget (logOf json) "percentage_used") 0))
  let liveTempC :=
    match t0 with
    | some t => some t
    | none =>
      (jsToNumber (jget (logOf json) "composite_temperature")).map
        (fun k => ((round (k - 273) : ℤ) : ℚ))
  baseSummary json deviceName healthPercent writtenGB liveTempC

/-- The health derivation of the non-NVMe branch (lines 147–150): the first
wear/life attribute with a finite numeric `value`, else the pass/fail flag. -/
def ataHealth (json : JVal) (attrs : List JVal) : Option ℚ :=
  match attrs.find? lifePred with
  | some la =>
    match jsToNumber (jget la "value") with
    | some v => some v
    | none => statusHealth json
  | none => statusHealth json

/-- The non-NVMe branch of `summarizeSmart` (lines 142–158): LBAs at 512 bytes
each from the 241/242 "Written" attribute (0 when absent), wear/life health,
and the 194/190 temperature backstop. -/
def ataSummary (json deviceName : JVal) (t0 : Option ℚ) (attrs : List JVal) : Summary :=
  let writtenGB := round2 (toNumberSafe (rawOf (attrs.find? lbasPred) "value") 0 * 512 / 2 ^ 30)
  let liveTempC :=
    match t0 with
    | some t => some t
    | none => ataBackstop attrs
  baseSummary json deviceName (ataHealth json attrs) writtenGB liveTempC

/-- `summarizeSmart(json, deviceName)` (lines 89–188).  The temperature
extractor runs first (line 132) and can throw on a malformed attribute table;
the non-NVMe branch re-reads the attribute table and can throw the same way. -/
def summarizeSmart (json deviceName : JVal) : Except Unit Summary :=
  match extractTemperatureC json with
  | .error e => .error e
  | .ok t0 =>
    if isStrVal (typeOf json) "nvme" then .ok (nvmeSummary json deviceName t0)
    else
      match getAttrs json with
      | .error e => .error e
      | .ok attrs => .ok (ataSummary json deviceName t0 attrs)

/-! ## Reader, enumerator and aggregator (lines 57–80, 192–231) -/

/-- The validity predicate of `readSmartForDevice` (line 76):
`parsed && (parsed.model_name || parsed.serial_number || parsed?.device?.type)`. -/
def readValid (p : JVal) : Bool :=
  jsTruthy p && (jsTruthy (jget p "model_name") || jsTruthy (jget p "serial_number") ||
    jsTruthy (jget (jget p "device") "type"))

/-- Whether one access-mode attempt produced a valid payload; a rejected
invocation or a `JSON.parse` failure (both caught at line 77) never does. -/
def attemptValid : Except Unit JVal → Bool
  | .ok p => readValid p
  | .error _ => false

/-- `readSmartForDevice` (lines 65–80) over the outcomes of its (ordered)
access-mode attempts: the first valid parsed payload, or the empty object
after exhausting every strategy. -/
def readSmartForDevice (attempts : List (Except Unit JVal)) : JVal :=
  match attempts.find? attemptValid with
  | some (.ok p) => p
  | _ => .obj []

/-- The skip test of the aggregation loops (lines 201, 222):
`!j || (!j.model_name && !j.serial_number && !j.smart_status && !j?.device?.type)`. -/
def summarySkip (j : JVal) : Bool :=
  !jsTruthy j || (!jsTruthy (jget j "model_name") && !jsTruthy (jget j "serial_number") &&
    !jsTruthy (jget j "smart_status") && !jsTruthy (jget (jget j "device") "type"))

/-- One element of the published drive list: a full summary, or the error
record `{ Device: name, error: true, message }` pushed when reading or
normalizing threw (lines 205, 226); the human-readable `message` string is not
modelled. -/
inductive DriveEntry where
  | summary (s : Summary) : DriveEntry
  | errorRec (device : JVal) : DriveEntry

/-- The `Device` field of a published entry. -/
def DriveEntry.device : DriveEntry → JVal
  | .summary s => s.Device
  | .errorRec d => d

/-- Whether an entry is an `error: true` record. -/
def DriveEntry.isError : DriveEntry → Bool
  | .summary _ => false
  | .errorRec _ => true

/-- One iteration of the aggregation loop (lines 196–207) for device object
`d`, where `env` gives the access-mode attempt outcomes for each device name:
skip falsy names, read, skip invalid payloads, and push a summary or an error
record.  `none` means the device contributes no entry. -/
def step (env : JVal → List (Except Unit JVal)) (d : JVal) : Option DriveEntry :=
  if !jsTruthy (jget d "name") then none
  else if summarySkip (readSmartForDevice (env (jget d "name"))) then none
  else
    match summarizeSmart (readSmartForDevice (env (jget d "name"))) (jget d "name") with
    | .ok s => some (.summary s)
    | .error _ => some (.errorRec (jget d "name"))

/-- Sort key of the published list: `String(entry.Device)` (line 209). -/
def sortKey (e : DriveEntry) : String :=
  jsToString e.device

/-- The collator-parametric model of the comparator
`(a, b) => String(a.Device).localeCompare(String(b.Device))` (lines 209, 230):
`localeCompare` is the host's locale-sensitive collation, abstracted as
`cmp : String → String → ℤ`; the sort places `a` no later than `b` when the
collator does not order `b` strictly before `a`. -/
def entryCmpLe (cmp : String → String → ℤ) (a b : DriveEntry) : Bool :=
  decide (cmp (sortKey a) (sortKey b) ≤ 0)

/-- The `Drives` list published by one cycle (lines 192–210 and 213–231) under
the host collator `cmp`: the loop over the enumerated devices followed by the
stable sort by `Device`. -/
def aggregateWith (cmp : String → String → ℤ) (devices : List JVal)
    (env : JVal → List (Except Unit JVal)) : List DriveEntry :=
  (devices.filterMap (step env)).mergeSort (entryCmpLe cmp)

/-- The code-point collator: the host instance in which `localeCompare`
coincides with lexicographic string comparison. -/
def lexCmp (s t : String) : ℤ :=
  if s < t then -1 else if t < s then 1 else 0

/-- An admissible case-insensitive host collator: strings compare by their
lowercased forms, so "a" orders before "B", and "a" and "A" collate equal. -/
def ciCmp (s t : String) : ℤ :=
  lexCmp (strToLower s) (strToLower t)

/-- The comparator instance at the code-point collator `lexCmp`. -/
def entryLe (a b : DriveEntry) : Bool :=
  decide (sortKey a ≤ sortKey b)

/-- The published `Drives` list at the code-point collator.  Used by the
claims whose conclusions do not depend on which collator the host provides
(the list's multiset of entries); the collation-faithful model is
`aggregateWith`. -/
def aggregate (devices : List JVal) (env : JVal → List (Except Unit JVal)) : List DriveEntry :=
  (devices.filterMap (step env)).mergeSort entryLe

/-- `Array.isArray(parsed.devices) ? parsed.devices : []` (line 61). -/
def devicesOf (parsed : JVal) : List JVal :=
  match jget parsed "devices" with
  | .arr xs => xs
  | _ => []

/-- `scanDevices` (lines 58–62) over the outcome of `--scan`:
a rejected invocation or an unparseable stdout (`JSON.parse` throw) propagates
as an exception; a parsed value without a `devices` array yields the empty
list. -/
def scanDevices (outcome : Except Unit JVal) : Except Unit (List JVal) :=
  match outcome with
  | .error e => .error e
  | .ok parsed => .ok (devicesOf parsed)

/-- The drive-list part of `getAllDriveSummaries` (lines 192–210): enumeration
feeds the aggregation loop; an enumeration exception aborts the cycle. -/
def getAllDriveSummaries (scanOutcome : Except Unit JVal)
    (env : JVal → List (Except Unit JVal)) : Except Unit (List DriveEntry) :=
  match scanDevices scanOutcome with
  | .error e => .error e
  | .ok devs => .ok (aggregate devs env)

/-! ## Claim-side definitions

Definitions in this section restate, in the specification's own words, the
derivation rules the claims assert; theorems below compare them with the
embedded source functions. -/

/-- The attribute table as a plain list, for claim-side definitions that do not
model the throwing `.find` access: the elements when the table is an array,
`[]` otherwise. -/
def attrsD (json : JVal) : List JVal :=
  match jget (jget json "ata_smart_attributes") "table" with
  | .arr xs => xs
  | _ => []

/-- The inputs on which the attribute-table accesses cannot throw: the table
value is an array, or is falsy (absent, `null`, `0`, `""`, `false`, `NaN`). -/
def tableOk (json : JVal) : Bool :=
  match jget (jget json "ata_smart_attributes") "table" with
  | .arr _ => true
  | t => !jsTruthy t

/-- `HealthPercent` as claim C3 words it: (1) an explicit wear/life attribute —
for NVMe, `100 − percentage_used` floored at 0 (requiring the field to be
present and numeric for the rule to match); for non-NVMe, a vendor attribute
with a known remaining-life id or a Wear/Life/Percent name, taking its
(finite numeric) value directly; (2) otherwise the pass/fail flag mapped to
100/0; (3) otherwise undefined. -/
def healthPriorityClaim (json : JVal) : Option ℚ :=
  if isStrVal (typeOf json) "nvme" then
    match jsToNumber (jget (logOf json) "percentage_used") with
    | some pu => some (max 0 (100 - pu))
    | none => statusHealth json
  else
    match (attrsD json).find? lifePred with
    | some la =>
      match jsToNumber (jget la "value") with
      | some v => some v
      | none => statusHealth json
    | none => statusHealth json

/-- `HealthPercent` as the amended claim words it: for NVMe the wear derivation
always applies — `100 − percentage_used` with an absent or non-numeric field
defaulting to 0, floored at 0 — so the pass/fail flag is never consulted; for
non-NVMe, rules (1)–(3) as in the original claim. -/
def healthAmended (json : JVal) : Option ℚ :=
  if isStrVal (typeOf json) "nvme" then
    some (max 0 (100 - toNumberSafe (jget (logOf json) "percentage_used") 0))
  else
    match (attrsD json).find? lifePred with
    | some la =>
      match jsToNumber (jget la "value") with
      | some v => some v
      | none => statusHealth json
    | none => statusHealth json

/-- `LiveTemperatureC` as claim C7 words it: (a) a numeric top-level
current-temperature field; (b) for NVMe, composite temperature or first
temperature-sensor entry, converted by `C = K − 273`; (c) for non-NVMe, vendor
attribute 194 or 190, trying its normalized numeric value first and then the
first integer substring of its raw text; (d) otherwise undefined. -/
def tempPriorityClaim (json : JVal) : Option ℚ :=
  match jsToNumber (jget (jget json "temperature") "current") with
  | some t => some t
  | none =>
    if isStrVal (typeOf json) "nvme" then
      match jsToNumber (jget (logOf json) "composite_temperature") with
      | some k => some (k - 273)
      | none =>
        match jget (logOf json) "temperature_sensors" with
        | .arr (x :: _) => (jsToNumber x).map (fun k => k - 273)
        | _ => none
    else
      match (attrsD json).find? tempAttrPred with
      | some a =>
        match jsToNumber (jget a "value") with
        | some v => some v
        | none => intToRatOpt (jsFirstInt (jget (jget a "raw") "string"))
      | none => none

/-- Step (c) of the amended temperature claim: the first integer substring of
the raw value, then raw string, of attribute 194, then of attribute 190. -/
def ataCandidatesTemp (json : JVal) : Option ℚ :=
  intToRatOpt (tempFromCandidates
    [rawOf ((attrsD json).find? (fun a => idIs a 194)) "value",
     rawOf ((attrsD json).find? (fun a => idIs a 194)) "string",
     rawOf ((attrsD json).find? (fun a => idIs a 190)) "value",
     rawOf ((attrsD json).find? (fun a => idIs a 190)) "string"])

/-- `LiveTemperatureC` as the amended claim words it: (a) a numeric top-level
current-temperature field; (b) for NVMe, the composite temperature or first
temperature-sensor entry, converted by `C = K − 273` and rounded to the
nearest integer; (c) for every device family whose earlier steps failed, the
first integer substring of the raw value or raw string of vendor attribute 194
then 190 — the normalized attribute value is never consulted; (d) otherwise
undefined. -/
def tempAmended (json : JVal) : Option ℚ :=
  match jsToNumber (jget (jget json "temperature") "current") with
  | some t => some t
  | none =>
    if isStrVal (typeOf json) "nvme" then
      match jsToNumber (jget (logOf json) "composite_temperature") with
      | some k => some ((round (k - 273) : ℤ) : ℚ)
      | none =>
        match sensorsFirst json with
        | some k => some ((round (k - 273) : ℤ) : ℚ)
        | none => ataCandidatesTemp json
    else ataCandidatesTemp json

/-- Observer for the `HealthPercent` field of a normalizer outcome. -/
def healthOf : Except Unit Summary → Option (Option ℚ)
  | .ok s => some s.HealthPercent
  | .error _ => none

/-- Observer for the `LiveTemperatureC` field of a normalizer outcome. -/
def tempOf : Except Unit Summary → Option (Option ℚ)
  | .ok s => some s.LiveTemperatureC
  | .error _ => none

/-! ## Concrete scenario inputs used by witnesses and counterexamples -/

/-- An enumerated device object `{ name: n }` as produced by `--scan`. -/
def devObj (n : String) : JVal :=
  .obj [("name", .str n)]

/-- A minimal payload passing both the reader validity predicate and the
aggregator skip test. -/
def okPayload : JVal :=
  .obj [("model_name", .str "M")]

/-- A probe environment in which every access-mode attempt for `/dev/sdb`
fails (the reader exhausts all four strategies) while every other device
answers each attempt with a valid payload. -/
def env3 : JVal → List (Except Unit JVal) := fun n =>
  if isStrVal n "/dev/sdb" then [.error (), .error (), .error (), .error ()]
  else [.ok okPayload, .ok okPayload, .ok okPayload, .ok okPayload]

/-- Three enumerated devices, of which the second cannot be read. -/
def devs3 : List JVal :=
  [devObj "/dev/sda", devObj "/dev/sdb", devObj "/dev/sdc"]

/-- A probe environment in which every device answers immediately. -/
def envW : JVal → List (Except Unit JVal) := fun _ =>
  [.ok okPayload]

/-- The summary entry the aggregation loop pushes for a device named `n` under
the environment `envW`. -/
def entryOk (n : String) : DriveEntry :=
  .summary (ataSummary okPayload (.str n) (tempAmended okPayload) (attrsD okPayload))

/-- A payload whose `ata_smart_attributes.table` is a truthy non-array: the
source's `attrs.find(...)` call is then not a function call on an array and
throws. -/
def badTablePayload : JVal :=
  .obj [("ata_smart_attributes", .obj [("table", .num (some 5))])]

/-- An NVMe payload with no `percentage_used` field and a failed overall
health flag. -/
def nvmeNoWear : JVal :=
  .obj [("device", .obj [("type", .str "nvme")]),
        ("smart_status", .obj [("passed", .bool false)])]

/-- An NVMe payload with one million data units written. -/
def nvmeWritten : JVal :=
  .obj [("device", .obj [("type", .str "nvme")]),
        ("nvme_smart_health_information_log",
          .obj [("data_units_written", .num (some 1000000))])]

/-- A total-LBAs-written vendor attribute (id 241) with raw value 2097152. -/
def lbasAttrW : JVal :=
  .obj [("id", .num (some 241)), ("name", .str "Total_LBAs_Written"),
        ("raw", .obj [("value", .num (some 2097152)), ("string", .str "2097152")])]

/-- An ATA payload whose attribute table carries only `lbasAttrW`. -/
def ataWritten : JVal :=
  .obj [("ata_smart_attributes", .obj [("table", .arr [lbasAttrW])])]

/-- An ATA payload whose wear attribute (id 231) carries the negative
normalized value −5, as malformed firmware data could. -/
def ataNegativeWear : JVal :=
  .obj [("ata_smart_attributes", .obj [("table",
    .arr [.obj [("id", .num (some 231)), ("value", .num (some (-5)))]])])]

/-- An ATA payload whose temperature attribute has normalized value 50 but raw
value 36. -/
def ataNormalizedTemp : JVal :=
  .obj [("ata_smart_attributes", .obj [("table",
    .arr [.obj [("id", .num (some 194)), ("value", .num (some 50)),
      ("raw", .obj [("value", .num (some 36)), ("string", .str "36")])]])])]

/-- An NVMe payload with no composite temperature but an ATA-style temperature
attribute table. -/
def nvmeAtaTable : JVal :=
  .obj [("device", .obj [("type", .str "nvme")]),
        ("ata_smart_attributes", .obj [("table",
          .arr [.obj [("id", .num (some 194)),
            ("raw", .obj [("value", .num (some 36))])]])])]

/-! ## Helper lemmas -/

theorem jget_of_falsy {v : JVal} (k : String) (h : jsTruthy v = false) : jget v k = .undef := by
  cases v <;> simp_all [jsTruthy, jget]

theorem getAttrs_eq (json : JVal) :
    getAttrs json = if tableOk json then .ok (attrsD json) else .error () := by
  unfold getAttrs tableOk attrsD
  cases h : jget (jget json "ata_smart_attributes") "table" <;>
    simp [jsTruthy]
  case bool b => cases b <;> simp
  case num o =>
    cases o with
    | none => simp
    | some q => by_cases hq : q = 0 <;> simp [hq, bne]

theorem getAttrs_ok_attrsD {json : JVal} {xs : List JVal}
    (h : getAttrs json = .ok xs) : attrsD json = xs := by
  rw [getAttrs_eq] at h
  by_cases ht : tableOk json <;> simp [ht] at h
  exact h

theorem topCur_none_of_guard_false {json : JVal}
    (h : (jsTruthy (jget json "temperature") &&
      (jsToNumber (jget (jget json "temperature") "current")).isSome) = false) :
    jsToNumber (jget (jget json "temperature") "current") = none := by
  rcases Bool.and_eq_false_iff.mp h with h1 | h1
  · rw [jget_of_falsy "current" h1]
    rfl
  · exact Option.not_isSome_iff_eq_none.mp (by simp [h1])

theorem extract_error_getAttrs {json : JVal} {e : Unit}
    (h : extractTemperatureC json = .error e) : getAttrs json = .error e := by
  unfold extractTemperatureC at h
  split at h
  · exact absurd h (by simp)
  · split at h
    · exact absurd h (by simp)
    · split at h
      · exact absurd h (by simp)
      · cases hga : getAttrs json with
        | ok attrs => rw [hga] at h; exact absurd h (by simp)
        | error e2 => simp_all

theorem extract_ok_eq {json : JVal} {t : Option ℚ}
    (h : extractTemperatureC json = .ok t) : t = tempAmended json := by
  unfold extractTemperatureC at h
  split at h
  case isTrue hc1 =>
    obtain ⟨v, hv⟩ := Option.isSome_iff_exists.mp (Bool.and_eq_true_iff.mp hc1).2
    injection h with h'
    subst h'
    simp [tempAmended, hv]
  case isFalse hc1 =>
    have h0 := topCur_none_of_guard_false (Bool.not_eq_true _ ▸ hc1)
    split at h
    case isTrue hc2 =>
      obtain ⟨hnv, hcs⟩ := Bool.and_eq_true_iff.mp hc2
      obtain ⟨k, hk⟩ := Option.isSome_iff_exists.mp hcs
      injection h with h'
      subst h'
      simp [tempAmended, h0, hnv, hk]
    case isFalse hc2 =>
      split at h
      case isTrue hc3 =>
        obtain ⟨hnv, hss⟩ := Bool.and_eq_true_iff.mp hc3
        obtain ⟨k, hk⟩ := Option.isSome_iff_exists.mp hss
        have hcomp : jsToNumber (jget (logOf json) "composite_temperature") = none := by
          rcases Bool.and_eq_false_iff.mp (Bool.not_eq_true _ ▸ hc2) with h2 | h2
          · exact absurd hnv (by simp [h2])
          · exact Option.not_isSome_iff_eq_none.mp (by simp [h2])
        injection h with h'
        subst h'
        simp [tempAmended, h0, hnv, hcomp, hk]
      case isFalse hc3 =>
        cases hga : getAttrs json with
        | error e2 => rw [hga] at h; exact absurd h (by simp)
        | ok attrs =>
          rw [hga] at h
          have hattrs := getAttrs_ok_attrsD hga
          injection h with h'
          subst h'
          by_cases hnv : isStrVal (typeOf json) "nvme" = true
          · have hcomp : jsToNumber (jget (logOf json) "composite_temperature") = none := by
              rcases Bool.and_eq_false_iff.mp (Bool.not_eq_true _ ▸ hc2) with h2 | h2
              · exact absurd hnv (by simp [h2])
              · exact Option.not_isSome_iff_eq_none.mp (by simp [h2])
            have hsens : sensorsFirst json = none := by
              rcases Bool.and_eq_false_iff.mp (Bool.not_eq_true _ ▸ hc3) with h3 | h3
              · exact absurd hnv (by simp [h3])
              · exact Option.not_isSome_iff_eq_none.mp (by simp [h3])
            simp [tempAmended, h0, hnv, hcomp, hsens, ataCandidatesTemp, hattrs]
          · simp [tempAmended, h0, Bool.not_eq_true _ ▸ hnv, ataCandidatesTemp, hattrs]

theorem extract_tableOk {json : JVal} (h : tableOk json = true) :
    extractTemperatureC json = .ok (tempAmended json) := by
  cases he : extractTemperatureC json with
  | ok t => rw [extract_ok_eq he]
  | error e =>
    have := extract_error_getAttrs he
    rw [getAttrs_eq, h] at this
    exact absurd this (by simp)

theorem summarize_ok_nvme {json dev : JVal} {s : Summary}
    (hn : isStrVal (typeOf json) "nvme" = true)
    (h : summarizeSmart json dev = .ok s) :
    s = nvmeSummary json dev (tempAmended json) := by
  unfold summarizeSmart at h
  cases he : extractTemperatureC json with
  | error e => rw [he] at h; exact absurd h (by simp)
  | ok t0 =>
    rw [he] at h
    simp only [hn, if_true] at h
    injection h with h'
    rw [← h', extract_ok_eq he]

theorem summarize_ok_ata {json dev : JVal} {s : Summary}
    (hn : isStrVal (typeOf json) "nvme" = false)
    (h : summarizeSmart json dev = .ok s) :
    s = ataSummary json dev (tempAmended json) (attrsD json) := by
  unfold summarizeSmart at h
  cases he : extractTemperatureC json with
  | error e => rw [he] at h; exact absurd h (by simp)
  | ok t0 =>
    rw [he] at h
    simp only [hn, Bool.false_eq_true, if_false] at h
    cases hga : getAttrs json with
    | error e => rw [hga] at h; exact absurd h (by simp)
    | ok attrs =>
      rw [hga] at h
      injection h with h'
      rw [← h', extract_ok_eq he, getAttrs_ok_attrsD hga]

theorem summarize_total (json dev : JVal) (h : tableOk json = true) :
    ∃ s, summarizeSmart json dev = .ok s := by
  unfold summarizeSmart
  rw [extract_tableOk h]
  by_cases hn : isStrVal (typeOf json) "nvme" = true
  · exact ⟨nvmeSummary json dev (tempAmended json), by simp [hn]⟩
  · refine ⟨ataSummary json dev (tempAmended json) (attrsD json), ?_⟩
    have hn' : isStrVal (typeOf json) "nvme" = false := by simpa using hn
    rw [getAttrs_eq, if_pos h]
    simp [hn']

theorem summarize_ok_device {json dev : JVal} {s : Summary}
    (h : summarizeSmart json dev = .ok s) : s.Device = dev := by
  by_cases hn : isStrVal (typeOf json) "nvme" = true
  · rw [summarize_ok_nvme hn h]; rfl
  · rw [summarize_ok_ata (by simpa using hn) h]; rfl

theorem find?_or_left {α : Type} {p q : α → Bool} :
    ∀ {l : List α} {t : α}, l.find? (fun a => p a || q a) = some t → p t = true →
      l.find? p = some t := by
  intro l
  induction l with
  | nil => intro t h hp; simp at h
  | cons x xs ih =>
    intro t h hp
    by_cases hx : (p x || q x) = true
    · rw [@List.find?_cons_of_pos α (fun a => p a || q a) x xs hx] at h
      injection h with h'
      subst h'
      rw [List.find?_cons_of_pos _ hp]
    · have hpx : p x = false := by
        rcases Bool.or_eq_false_iff.mp (Bool.not_eq_true _ ▸ hx) with ⟨h1, _⟩
        exact h1
      rw [@List.find?_cons_of_neg α (fun a => p a || q a) x xs hx] at h
      rw [List.find?_cons_of_neg _ (by simp [hpx])]
      exact ih h hp

theorem find?_or_right {α : Type} {p q : α → Bool} :
    ∀ {l : List α} {t : α}, l.find? (fun a => p a || q a) = some t → p t = false →
      l.find? q = some t := by
  intro l
  induction l with
  | nil => intro t h hp; simp at h
  | cons x xs ih =>
    intro t h hp
    by_cases hx : (p x || q x) = true
    · rw [@List.find?_cons_of_pos α (fun a => p a || q a) x xs hx] at h
      injection h with h'
      subst h'
      have hq : q x = true := by
        rcases Bool.or_eq_true_iff.mp hx with h1 | h1
        · exact absurd h1 (by simp [hp])
        · exact h1
      rw [List.find?_cons_of_pos _ hq]
    · have hqx : q x = false := by
        rcases Bool.or_eq_false_iff.mp (Bool.not_eq_true _ ▸ hx) with ⟨_, h2⟩
        exact h2
      rw [@List.find?_cons_of_neg α (fun a => p a || q a) x xs hx] at h
      rw [List.find?_cons_of_neg _ (by simp [hqx])]
      exact ih h hp

theorem tempFromCandidates_none {cs : List JVal} (h : tempFromCandidates cs = none) :
    ∀ c ∈ cs, isNullish c = true ∨ jsFirstInt c = none := by
  induction cs with
  | nil => intro c hc; simp at hc
  | cons x xs ih =>
    intro c hc
    unfold tempFromCandidates at h
    by_cases hx : isNullish x = true
    · rw [if_pos hx] at h
      rcases List.mem_cons.mp hc with rfl | hc2
      · exact Or.inl hx
      · exact ih h c hc2
    · rw [if_neg hx] at h
      cases hj : jsFirstInt x with
      | some n => rw [hj] at h; exact absurd h (by simp)
      | none =>
        rw [hj] at h
        rcases List.mem_cons.mp hc with rfl | hc2
        · exact Or.inr hj
        · exact ih h c hc2

theorem ataBackstop_none {attrs : List JVal}
    (h : tempFromCandidates
        [rawOf (attrs.find? (fun a => idIs a 194)) "value",
         rawOf (attrs.find? (fun a => idIs a 194)) "string",
         rawOf (attrs.find? (fun a => idIs a 190)) "value",
         rawOf (attrs.find? (fun a => idIs a 190)) "string"] = none) :
    ataBackstop attrs = none := by
  have hmem := tempFromCandidates_none h
  unfold ataBackstop
  cases hT : attrs.find? tempAttrPred with
  | none => simp [rawOf, jget, jsNullish, isNullish]
  | some tA =>
    have hpq : (idIs tA 194 || idIs tA 190) = true := by
      have := List.find?_some hT
      simpa [tempAttrPred] using this
    have hcases :
        (attrs.find? (fun a => idIs a 194) = some tA) ∨
        (attrs.find? (fun a => idIs a 190) = some tA) := by
      have hT' : attrs.find? (fun a => idIs a 194 || idIs a 190) = some tA := hT
      by_cases h194 : idIs tA 194 = true
      · exact Or.inl (find?_or_left hT' h194)
      · exact Or.inr (find?_or_right hT' (by simpa using h194))
    rcases hcases with hf | hf
    · have hv := hmem (rawOf (attrs.find? (fun a => idIs a 194)) "value") (by simp)
      have hs := hmem (rawOf (attrs.find? (fun a => idIs a 194)) "string") (by simp)
      rw [hf] at hv hs
      by_cases hnv : isNullish (rawOf (some tA) "value") = true
      · rw [jsNullish, if_pos hnv]
        by_cases hns : isNullish (rawOf (some tA) "string") = true
        · rw [if_pos hns]
        · rcases hs with h1 | h1
          · exact absurd h1 hns
          · rw [if_neg hns, h1]
            rfl
      · rw [jsNullish, if_neg hnv, if_neg hnv]
        rcases hv with h1 | h1
        · exact absurd h1 hnv
        · rw [h1]
          rfl
    · have hv := hmem (rawOf (attrs.find? (fun a => idIs a 190)) "value") (by simp)
      have hs := hmem (rawOf (attrs.find? (fun a => idIs a 190)) "string") (by simp)
      rw [hf] at hv hs
      by_cases hnv : isNullish (rawOf (some tA) "value") = true
      · rw [jsNullish, if_pos hnv]
        by_cases hns : isNullish (rawOf (some tA) "string") = true
        · rw [if_pos hns]
        · rcases hs with h1 | h1
          · exact absurd h1 hns
          · rw [if_neg hns, h1]
            rfl
      · rw [jsNullish, if_neg hnv, if_neg hnv]
        rcases hv with h1 | h1
        · exact absurd h1 hnv
        · rw [h1]
          rfl

theorem tempAmended_none_cands {json : JVal} (h : tempAmended json = none) :
    ataCandidatesTemp json = none := by
  unfold tempAmended at h
  cases h0 : jsToNumber (jget (jget json "temperature") "current") with
  | some v => rw [h0] at h; exact absurd h (by simp)
  | none =>
    rw [h0] at h
    by_cases hnv : isStrVal (typeOf json) "nvme" = true
    · rw [hnv] at h
      simp only [if_true] at h
      cases hc : jsToNumber (jget (logOf json) "composite_temperature") with
      | some k => rw [hc] at h; exact absurd h (by simp)
      | none =>
        rw [hc] at h
        cases hs : sensorsFirst json with
        | some k => rw [hs] at h; exact absurd h (by simp)
        | none => rw [hs] at h; exact h
    · have hnv' : isStrVal (typeOf json) "nvme" = false := by simpa using hnv
      rw [hnv'] at h
      simpa using h

theorem intToRatOpt_eq_none {o : Option ℤ} (h : intToRatOpt o = none) : o = none := by
  cases o with
  | none => rfl
  | some n => exact absurd h (by simp [intToRatOpt])

theorem ataCandidates_backstop_none {json : JVal} (h : ataCandidatesTemp json = none) :
    ataBackstop (attrsD json) = none := by
  unfold ataCandidatesTemp at h
  exact ataBackstop_none (intToRatOpt_eq_none h)

theorem tempAmended_none_comp {json : JVal} (hn : isStrVal (typeOf json) "nvme" = true)
    (h : tempAmended json = none) :
    jsToNumber (jget (logOf json) "composite_temperature") = none := by
  unfold tempAmended at h
  cases h0 : jsToNumber (jget (jget json "temperature") "current") with
  | some v => rw [h0] at h; exact absurd h (by simp)
  | none =>
    rw [h0] at h
    rw [hn] at h
    simp only [if_true] at h
    cases hc : jsToNumber (jget (logOf json) "composite_temperature") with
    | some k => rw [hc] at h; exact absurd h (by simp)
    | none => rfl

theorem summarize_live {json dev : JVal} {s : Summary}
    (h : summarizeSmart json dev = .ok s) :
    s.LiveTemperatureC = tempAmended json := by
  by_cases hn : isStrVal (typeOf json) "nvme" = true
  · rw [summarize_ok_nvme hn h]
    cases ht : tempAmended json with
    | some t => simp [nvmeSummary, baseSummary, ht]
    | none =>
      have hcomp := tempAmended_none_comp hn ht
      simp [nvmeSummary, baseSummary, ht, hcomp]
  · have hn' : isStrVal (typeOf json) "nvme" = false := by simpa using hn
    rw [summarize_ok_ata hn' h]
    cases ht : tempAmended json with
    | some t => simp [ataSummary, baseSummary, ht]
    | none =>
      have hbs := ataCandidates_backstop_none (tempAmended_none_cands ht)
      simp [ataSummary, baseSummary, ht, hbs]

theorem summarize_health {json dev : JVal} {s : Summary}
    (h : summarizeSmart json dev = .ok s) :
    s.HealthPercent = healthAmended json := by
  by_cases hn : isStrVal (typeOf json) "nvme" = true
  · rw [summarize_ok_nvme hn h]
    simp [nvmeSummary, baseSummary, healthAmended, hn]
  · have hn' : isStrVal (typeOf json) "nvme" = false := by simpa using hn
    rw [summarize_ok_ata hn' h]
    simp [ataSummary, baseSummary, healthAmended, hn', ataHealth]

theorem step_some_device {env : JVal → List (Except Unit JVal)} {d : JVal} {e : DriveEntry}
    (h : step env d = some e) : e.device = jget d "name" := by
  unfold step at h
  by_cases hname : jsTruthy (jget d "name") = true
  · rw [hname] at h
    simp only [Bool.not_true, Bool.false_eq_true, if_false] at h
    by_cases hskip : summarySkip (readSmartForDevice (env (jget d "name"))) = true
    · rw [hskip] at h
      exact absurd h (by simp)
    · have hskip' : summarySkip (readSmartForDevice (env (jget d "name"))) = false := by
        simpa using hskip
      rw [hskip'] at h
      simp only [Bool.false_eq_true, if_false] at h
      cases hs : summarizeSmart (readSmartForDevice (env (jget d "name"))) (jget d "name") with
      | ok s =>
        rw [hs] at h
        injection h with h'
        rw [← h']
        exact summarize_ok_device hs
      | error e2 =>
        rw [hs] at h
        injection h with h'
        rw [← h']
        rfl
  · have hname' : jsTruthy (jget d "name") = false := by simpa using hname
    rw [hname'] at h
    exact absurd h (by simp)

theorem step_none_of_exhausted {env : JVal → List (Except Unit JVal)} {d : JVal}
    (h : ∀ r ∈ env (jget d "name"), attemptValid r = false) : step env d = none := by
  unfold step
  by_cases hname : jsTruthy (jget d "name") = true
  · rw [hname]
    have hfind : (env (jget d "name")).find? attemptValid = none :=
      List.find?_eq_none.mpr (fun x hx => by simp [h x hx])
    have hread : readSmartForDevice (env (jget d "name")) = .obj [] := by
      unfold readSmartForDevice
      rw [hfind]
    rw [hread]
    simp [summarySkip, jsTruthy, jget]
  · have hname' : jsTruthy (jget d "name") = false := by simpa using hname
    rw [hname']
    simp

theorem lexCmp_le_iff {s t : String} : lexCmp s t ≤ 0 ↔ s ≤ t := by
  unfold lexCmp
  by_cases h1 : s < t
  · rw [if_pos h1]
    constructor
    · intro _
      exact le_of_lt h1
    · intro _
      norm_num
  · rw [if_neg h1]
    by_cases h2 : t < s
    · rw [if_pos h2]
      constructor
      · intro h
        exact absurd h (by norm_num)
      · intro h
        exact absurd h2 (not_lt.mpr h)
    · rw [if_neg h2]
      constructor
      · intro _
        exact le_of_not_lt h2
      · intro _
        exact le_refl 0

theorem lexCmp_total : ∀ s t, lexCmp s t ≤ 0 ∨ lexCmp t s ≤ 0 := by
  intro s t
  rcases le_total s t with h | h
  · exact Or.inl (lexCmp_le_iff.mpr h)
  · exact Or.inr (lexCmp_le_iff.mpr h)

theorem lexCmp_trans : ∀ s t u, lexCmp s t ≤ 0 → lexCmp t u ≤ 0 → lexCmp s u ≤ 0 :=
  fun _ _ _ h1 h2 =>
    lexCmp_le_iff.mpr (le_trans (lexCmp_le_iff.mp h1) (lexCmp_le_iff.mp h2))

theorem ciCmp_total : ∀ s t, ciCmp s t ≤ 0 ∨ ciCmp t s ≤ 0 :=
  fun s t => lexCmp_total (strToLower s) (strToLower t)

theorem ciCmp_trans : ∀ s t u, ciCmp s t ≤ 0 → ciCmp t u ≤ 0 → ciCmp s u ≤ 0 :=
  fun _ _ _ h1 h2 => lexCmp_trans _ _ _ h1 h2

theorem entryCmpLe_trans {cmp : String → String → ℤ}
    (htrans : ∀ s t u, cmp s t ≤ 0 → cmp t u ≤ 0 → cmp s u ≤ 0) :
    ∀ a b c : DriveEntry, entryCmpLe cmp a b = true → entryCmpLe cmp b c = true →
      entryCmpLe cmp a c = true := by
  intro a b c h1 h2
  simp only [entryCmpLe, decide_eq_true_eq] at h1 h2 ⊢
  exact htrans _ _ _ h1 h2

theorem entryCmpLe_total {cmp : String → String → ℤ}
    (htot : ∀ s t, cmp s t ≤ 0 ∨ cmp t s ≤ 0) :
    ∀ a b : DriveEntry, (entryCmpLe cmp a b || entryCmpLe cmp b a) = true := by
  intro a b
  simp only [entryCmpLe, Bool.or_eq_true, decide_eq_true_eq]
  exact htot _ _

theorem aggregateWith_sorted (cmp : String → String → ℤ)
    (htrans : ∀ s t u, cmp s t ≤ 0 → cmp t u ≤ 0 → cmp s u ≤ 0)
    (htot : ∀ s t, cmp s t ≤ 0 ∨ cmp t s ≤ 0)
    (devices : List JVal) (env : JVal → List (Except Unit JVal)) :
    (aggregateWith cmp devices env).Pairwise
      (fun a b => cmp (sortKey a) (sortKey b) ≤ 0) := by
  have h := List.sorted_mergeSort (entryCmpLe_trans htrans) (entryCmpLe_total htot)
    (devices.filterMap (step env))
  exact h.imp (fun hab => by simpa [entryCmpLe, decide_eq_true_eq] using hab)

theorem aggregateWith_order_irrelevant (cmp : String → String → ℤ)
    (htrans : ∀ s t u, cmp s t ≤ 0 → cmp t u ≤ 0 → cmp s u ≤ 0)
    (htot : ∀ s t, cmp s t ≤ 0 ∨ cmp t s ≤ 0)
    (env : JVal → List (Except Unit JVal)) {l₁ l₂ : List JVal}
    (hperm : l₁.Perm l₂)
    (hdist : l₁.Pairwise (fun a b =>
      ¬(cmp (jsToString (jget a "name")) (jsToString (jget b "name")) ≤ 0 ∧
        cmp (jsToString (jget b "name")) (jsToString (jget a "name")) ≤ 0))) :
    aggregateWith cmp l₁ env = aggregateWith cmp l₂ env := by
  have hperm₁ : (aggregateWith cmp l₁ env).Perm (l₁.filterMap (step env)) :=
    List.mergeSort_perm (l₁.filterMap (step env)) (entryCmpLe cmp)
  have hperm₂ : (aggregateWith cmp l₂ env).Perm (l₂.filterMap (step env)) :=
    List.mergeSort_perm (l₂.filterMap (step env)) (entryCmpLe cmp)
  have hmid : (l₁.filterMap (step env)).Perm (l₂.filterMap (step env)) :=
    hperm.filterMap (step env)
  have hp : (aggregateWith cmp l₁ env).Perm (aggregateWith cmp l₂ env) :=
    (hperm₁.trans hmid).trans hperm₂.symm
  have hne₁ : (l₁.filterMap (step env)).Pairwise
      (fun a b => ¬(cmp (sortKey a) (sortKey b) ≤ 0 ∧ cmp (sortKey b) (sortKey a) ≤ 0)) := by
    rw [List.pairwise_filterMap]
    refine hdist.imp_of_mem (fun {a b} _ _ hab => ?_)
    intro x hx y hy
    rw [sortKey, sortKey, step_some_device hx, step_some_device hy]
    exact hab
  have hsym : ∀ {x y : DriveEntry},
      ¬(cmp (sortKey x) (sortKey y) ≤ 0 ∧ cmp (sortKey y) (sortKey x) ≤ 0) →
      ¬(cmp (sortKey y) (sortKey x) ≤ 0 ∧ cmp (sortKey x) (sortKey y) ≤ 0) :=
    fun h hc => h ⟨hc.2, hc.1⟩
  have hne₁' : (aggregateWith cmp l₁ env).Pairwise
      (fun a b => ¬(cmp (sortKey a) (sortKey b) ≤ 0 ∧ cmp (sortKey b) (sortKey a) ≤ 0)) :=
    (hperm₁.pairwise_iff hsym).mpr hne₁
  have hne₂' : (aggregateWith cmp l₂ env).Pairwise
      (fun a b => ¬(cmp (sortKey a) (sortKey b) ≤ 0 ∧ cmp (sortKey b) (sortKey a) ≤ 0)) :=
    (hp.pairwise_iff hsym).mp hne₁'
  have hs₁ := (aggregateWith_sorted cmp htrans htot l₁ env).and hne₁'
  have hs₂ := (aggregateWith_sorted cmp htrans htot l₂ env).and hne₂'
  haveI hanti : IsAntisymm DriveEntry
      (fun a b => cmp (sortKey a) (sortKey b) ≤ 0 ∧ ¬(cmp (sortKey b) (sortKey a) ≤ 0)) :=
    ⟨fun a b h1 h2 => absurd h2.1 h1.2⟩
  exact @List.eq_of_perm_of_sorted DriveEntry
    (fun a b => cmp (sortKey a) (sortKey b) ≤ 0 ∧ ¬(cmp (sortKey b) (sortKey a) ≤ 0)) hanti _ _ hp
    (hs₁.imp (fun hab => ⟨hab.1, fun hba => hab.2 ⟨hab.1, hba⟩⟩))
    (hs₂.imp (fun hab => ⟨hab.1, fun hba => hab.2 ⟨hab.1, hba⟩⟩))

theorem aggregateWith_lexCmp (devices : List JVal) (env : JVal → List (Except Unit JVal)) :
    aggregateWith lexCmp devices env = aggregate devices env := by
  unfold aggregateWith aggregate
  have h : entryCmpLe lexCmp = entryLe := by
    funext a b
    exact decide_eq_decide.mpr lexCmp_le_iff
  rw [h]

/-! ## Claims -/

/-- Claim C1, counterexample.  The claim asserts that a device whose reader
exhausts all access-mode strategies still contributes an `error: true` entry,
so that 3 devices with device 2 failing give a 3-entry snapshot.  On the code,
such a device is skipped by the aggregation loop's `continue`: with devices
`/dev/sda`, `/dev/sdb`, `/dev/sdc` and every strategy for `/dev/sdb` failing,
the published list has 2 entries and none of them is an error record. -/
theorem C1_counterexample :
    (aggregate devs3 env3).length = 2 ∧ ∀ e ∈ aggregate devs3 env3, e.isError = false := by
  constructor
  · rw [aggregate, List.length_mergeSort]
    with_unfolding_all decide
  · have hall : ∀ e ∈ devs3.filterMap (step env3), e.isError = false := by
      with_unfolding_all decide
    intro e he
    rw [aggregate] at he
    exact hall e ((List.mergeSort_perm (devs3.filterMap (step env3)) entryLe).subset he)

/-- Claim C1, amended: a device whose reader exhausts all access-mode
strategies without a valid payload is silently omitted from the snapshot (the
empty payload fails the aggregator's validity test and the loop continues),
and the other devices' records are unaffected: the published list equals the
one obtained with the failing device removed from enumeration.  Error records
are appended only when reading or normalizing throws. -/
theorem C1_amended_theorem (env : JVal → List (Except Unit JVal)) (pre post : List JVal)
    (d : JVal) (h : ∀ r ∈ env (jget d "name"), attemptValid r = false) :
    aggregate (pre ++ d :: post) env = aggregate (pre ++ post) env := by
  unfold aggregate
  rw [List.filterMap_append, List.filterMap_append,
    List.filterMap_cons_none (step_none_of_exhausted h)]

/-- Witness for C1's amended theorem at the concrete 3-device scenario. -/
theorem C1_witness :
    (∀ r ∈ env3 (jget (devObj "/dev/sdb") "name"), attemptValid r = false) ∧
    aggregate ([devObj "/dev/sda"] ++ devObj "/dev/sdb" :: [devObj "/dev/sdc"]) env3 =
      aggregate ([devObj "/dev/sda"] ++ [devObj "/dev/sdc"]) env3 :=
  ⟨by with_unfolding_all decide,
    C1_amended_theorem env3 [devObj "/dev/sda"] [devObj "/dev/sdc"] (devObj "/dev/sdb")
      (by with_unfolding_all decide)⟩

/-- Claim C2, counterexample.  The claim asserts the normalizer never throws
for a structurally-arbitrary input object; but when
`ata_smart_attributes.table` is a truthy non-array (here the number 5), the
source's `attrs.find(...)` is applied to a non-array and throws. -/
theorem C2_counterexample :
    summarizeSmart badTablePayload (.str "/dev/sda") = .error () := by
  with_unfolding_all rfl

/-- Claim C2, amended: for every input whose `ata_smart_attributes.table` is
an array or falsy — in particular every input with that field absent — the
normalizer returns a Canonical Drive Record and never throws; every counter
field produced by the numeric coercion helper is a defined rational (the
record type gives them ℚ, with absent or unparseable values defaulting to 0),
and as a Lean function the normalizer is pure and deterministic. -/
theorem C2_amended_theorem (json dev : JVal) (h : tableOk json = true) :
    ∃ s, summarizeSmart json dev = .ok s :=
  summarize_total json dev h

/-- Witness for C2's amended theorem at the all-fields-absent input `{}`. -/
theorem C2_witness :
    tableOk (.obj []) = true ∧ ∃ s, summarizeSmart (.obj []) (.str "/dev/sda") = .ok s :=
  ⟨by with_unfolding_all rfl, C2_amended_theorem (.obj []) (.str "/dev/sda") (by with_unfolding_all rfl)⟩

/-- Claim C3, counterexample.  The claimed priority order makes the pass/fail
flag decide `HealthPercent` whenever no explicit wear attribute exists; but on
an NVMe payload with no `percentage_used` and `smart_status.passed: false`,
the code computes `max(0, 100 − toNumberSafe(undefined)) = 100` and never
consults the flag, while the claimed priority yields 0. -/
theorem C3_counterexample :
    healthOf (summarizeSmart nvmeNoWear (.str "/dev/nvme0")) = some (some 100) ∧
    healthPriorityClaim nvmeNoWear = some 0 := by
  with_unfolding_all decide

/-- Claim C3, amended: for NVMe the wear derivation always applies —
`HealthPercent = max(0, 100 − percentage_used)` with an absent or non-numeric
field defaulting to 0 — so the pass/fail flag is never consulted for NVMe;
for non-NVMe, first a wear/life attribute with a finite numeric value (its
value taken directly), then the pass/fail flag mapped to 100/0, else
undefined.  In particular, given both a wear attribute and a pass/fail flag,
the wear attribute wins. -/
theorem C3_amended_theorem (json dev : JVal) (s : Summary)
    (h : summarizeSmart json dev = .ok s) :
    s.HealthPercent = healthAmended json :=
  summarize_health h

/-- Witness for C3's amended theorem at the concrete NVMe input. -/
theorem C3_witness :
    healthOf (summarizeSmart nvmeNoWear (.str "/dev/nvme0")) = some (healthAmended nvmeNoWear) := by
  have h : summarizeSmart nvmeNoWear (.str "/dev/nvme0") =
      .ok (nvmeSummary nvmeNoWear (.str "/dev/nvme0") (tempAmended nvmeNoWear)) := by
    with_unfolding_all rfl
  rw [h]
  exact congrArg some (C3_amended_theorem nvmeNoWear (.str "/dev/nvme0") _ h)

/-- Claim C4 (confirmed): for every NVMe payload whose
`data_units_written` field holds the finite number `u`, the record's
`WrittenGB` is `round(u * 512000 / 2^30, 2)` — two-decimal rounding of data
units at 512,000 bytes each. -/
theorem C4_theorem (json dev : JVal) (s : Summary) (u : ℚ)
    (h : summarizeSmart json dev = .ok s)
    (hn : isStrVal (typeOf json) "nvme" = true)
    (hu : jsToNumber (jget (logOf json) "data_units_written") = some u) :
    s.WrittenGB = round2 (u * 512000 / 2 ^ 30) := by
  rw [summarize_ok_nvme hn h]
  simp [nvmeSummary, baseSummary, toNumberSafe, hu]

/-- Witness for C4 at `data_units_written = 1000000`, with the resulting value
`476.84` of the specification's worked example. -/
theorem C4_witness :
    (∃ s, summarizeSmart nvmeWritten (.str "/dev/nvme0") = .ok s ∧
      s.WrittenGB = round2 (1000000 * 512000 / 2 ^ 30)) ∧
    round2 ((1000000 : ℚ) * 512000 / 2 ^ 30) = 47684 / 100 := by
  constructor
  · refine ⟨nvmeSummary nvmeWritten (.str "/dev/nvme0") (tempAmended nvmeWritten), ?_, ?_⟩
    · with_unfolding_all rfl
    · exact C4_theorem nvmeWritten (.str "/dev/nvme0") _ 1000000 (by with_unfolding_all rfl)
        (by with_unfolding_all rfl) (by with_unfolding_all rfl)
  · rw [round2, round_eq]
    norm_num

/-- Claim C5 (confirmed): for every non-NVMe payload, when the attribute table
contains a total-LBAs-written attribute (id 241 or 242 with a name containing
"Written") whose raw value is the finite number `l`, `WrittenGB` is
`round(l * 512 / 2^30, 2)`; when no such attribute is present, `WrittenGB` is
0 and no error is raised (the record is still produced). -/
theorem C5_theorem (json dev : JVal) (s : Summary) (attrs : List JVal)
    (h : summarizeSmart json dev = .ok s)
    (hn : isStrVal (typeOf json) "nvme" = false)
    (ha : getAttrs json = .ok attrs) :
    (∀ a l, attrs.find? lbasPred = some a →
      jsToNumber (jget (jget a "raw") "value") = some l →
      s.WrittenGB = round2 (l * 512 / 2 ^ 30)) ∧
    (attrs.find? lbasPred = none → s.WrittenGB = 0) := by
  have hs := summarize_ok_ata hn h
  have hd := getAttrs_ok_attrsD ha
  subst hs
  rw [hd]
  constructor
  · intro a l hfa hl
    simp [ataSummary, baseSummary, hfa, rawOf, toNumberSafe, hl]
  · intro hfa
    simp [ataSummary, baseSummary, hfa, rawOf, toNumberSafe, jget, jsToNumber, round2]

/-- Witness for C5: the present case at raw value 2097152 (exactly 1 GB) and
the absent case at the empty payload. -/
theorem C5_witness :
    (∃ s, summarizeSmart ataWritten (.str "/dev/sda") = .ok s ∧
      s.WrittenGB = round2 (2097152 * 512 / 2 ^ 30)) ∧
    (∃ s, summarizeSmart (.obj []) (.str "/dev/sdb") = .ok s ∧ s.WrittenGB = 0) := by
  constructor
  · refine ⟨ataSummary ataWritten (.str "/dev/sda") (tempAmended ataWritten) (attrsD ataWritten),
      ?_, ?_⟩
    · with_unfolding_all rfl
    · exact (C5_theorem ataWritten (.str "/dev/sda") _ (attrsD ataWritten)
        (by with_unfolding_all rfl) (by with_unfolding_all rfl)
        (by with_unfolding_all rfl)).1 lbasAttrW 2097152
        (by with_unfolding_all rfl) (by with_unfolding_all rfl)
  · refine ⟨ataSummary (.obj []) (.str "/dev/sdb") (tempAmended (.obj [])) (attrsD (.obj [])),
      ?_, ?_⟩
    · with_unfolding_all rfl
    · exact (C5_theorem (.obj []) (.str "/dev/sdb") _ (attrsD (.obj []))
        (by with_unfolding_all rfl) (by with_unfolding_all rfl)
        (by with_unfolding_all rfl)).2 (by with_unfolding_all rfl)

/-- Claim C6 (code bug): the claim — and the specification's data-model
invariant — say a defined `HealthPercent` is never negative, clamped at a 0
floor.  The code clamps only on the NVMe path; a non-NVMe wear attribute's
value is taken unclamped, so the failing input `ataNegativeWear` (wear
attribute id 231 with value −5) produces `HealthPercent = −5 < 0`. -/
theorem C6_theorem :
    healthOf (summarizeSmart ataNegativeWear (.str "/dev/sda")) = some (some (-5)) ∧
    ((-5 : ℚ) < 0) := by
  constructor
  · with_unfolding_all decide
  · norm_num

/-- Claim C7, counterexample.  The claimed non-NVMe rule tries the attribute's
normalized value first, and applies only to non-NVMe devices; the code never
reads the normalized value (it uses `raw.value`/`raw.string` only), and its
attribute fallback also runs for NVMe payloads: on `ataNormalizedTemp`
(normalized 50, raw 36) the code yields 36 where the claim yields 50, and on
`nvmeAtaTable` the code yields 36 where the claim yields undefined. -/
theorem C7_counterexample :
    tempOf (summarizeSmart ataNormalizedTemp (.str "/dev/sda")) = some (some 36) ∧
    tempPriorityClaim ataNormalizedTemp = some 50 ∧
    tempOf (summarizeSmart nvmeAtaTable (.str "/dev/nvme0")) = some (some 36) ∧
    tempPriorityClaim nvmeAtaTable = none := by
  with_unfolding_all decide

/-- Claim C7, amended: `LiveTemperatureC` is derived by first success among
(a) a numeric top-level `temperature.current`, which overrides everything;
(b) for NVMe, the composite temperature or first temperature-sensor entry,
converted by `C = K − 273` and rounded to the nearest integer; (c) for every
device family whose earlier steps failed, the first integer substring of the
raw value, then raw string, of vendor attribute 194, then 190 — the
normalized attribute value is never consulted; (d) otherwise undefined. -/
theorem C7_amended_theorem (json dev : JVal) (s : Summary)
    (h : summarizeSmart json dev = .ok s) :
    s.LiveTemperatureC = tempAmended json :=
  summarize_live h

/-- Witness for C7's amended theorem at the concrete ATA input. -/
theorem C7_witness :
    tempOf (summarizeSmart ataNormalizedTemp (.str "/dev/sda")) =
      some (tempAmended ataNormalizedTemp) := by
  have h : summarizeSmart ataNormalizedTemp (.str "/dev/sda") =
      .ok (ataSummary ataNormalizedTemp (.str "/dev/sda") (tempAmended ataNormalizedTemp)
        (attrsD ataNormalizedTemp)) := by
    with_unfolding_all rfl
  rw [h]
  exact congrArg some (C7_amended_theorem ataNormalizedTemp (.str "/dev/sda") _ h)

/-- Claim C8, counterexample.  The code sorts with `localeCompare` (lines
209, 230), a locale-sensitive collation rather than code-point lexicographic
order, so the claimed lexicographic sortedness and order-independence fail on
admissible hosts.  Under the case-insensitive collator `ciCmp` — consistent
per `ciCmp_trans`/`ciCmp_total`, and ordering "a" before "B" as real
collations do — the list published for devices named "a" and "B" is not
sorted lexicographically ("B" < "a" by code points); and devices named "a"
and "A", whose names `ciCmp` collates as equal, keep their discovery order in
the stable sort, so two discovery orders publish different lists. -/
theorem C8_counterexample :
    ¬ (aggregateWith ciCmp [devObj "a", devObj "B"] envW).Pairwise
        (fun a b => sortKey a ≤ sortKey b) ∧
    aggregateWith ciCmp [devObj "a", devObj "A"] envW ≠
      aggregateWith ciCmp [devObj "A", devObj "a"] envW := by
  constructor
  · have hfm : List.filterMap (step envW) [devObj "a", devObj "B"] =
        [entryOk "a", entryOk "B"] := by
      with_unfolding_all rfl
    have hsorted : ([entryOk "a", entryOk "B"] : List DriveEntry).Pairwise
        (fun a b => entryCmpLe ciCmp a b = true) := by
      with_unfolding_all decide
    have hagg : aggregateWith ciCmp [devObj "a", devObj "B"] envW =
        [entryOk "a", entryOk "B"] := by
      rw [aggregateWith, hfm]
      exact List.mergeSort_of_sorted hsorted
    rw [hagg]
    with_unfolding_all decide
  · have hfm1 : List.filterMap (step envW) [devObj "a", devObj "A"] =
        [entryOk "a", entryOk "A"] := by
      with_unfolding_all rfl
    have hfm2 : List.filterMap (step envW) [devObj "A", devObj "a"] =
        [entryOk "A", entryOk "a"] := by
      with_unfolding_all rfl
    have hs1 : ([entryOk "a", entryOk "A"] : List DriveEntry).Pairwise
        (fun a b => entryCmpLe ciCmp a b = true) := by
      with_unfolding_all decide
    have hs2 : ([entryOk "A", entryOk "a"] : List DriveEntry).Pairwise
        (fun a b => entryCmpLe ciCmp a b = true) := by
      with_unfolding_all decide
    have hagg1 : aggregateWith ciCmp [devObj "a", devObj "A"] envW =
        [entryOk "a", entryOk "A"] := by
      rw [aggregateWith, hfm1]
      exact List.mergeSort_of_sorted hs1
    have hagg2 : aggregateWith ciCmp [devObj "A", devObj "a"] envW =
        [entryOk "A", entryOk "a"] := by
      rw [aggregateWith, hfm2]
      exact List.mergeSort_of_sorted hs2
    rw [hagg1, hagg2]
    intro heq
    have hkey := congrArg (List.map sortKey) heq
    simp only [List.map_cons, List.map_nil] at hkey
    have e1 : sortKey (entryOk "a") = "a" := by with_unfolding_all rfl
    have e2 : sortKey (entryOk "A") = "A" := by with_unfolding_all rfl
    rw [e1, e2] at hkey
    exact absurd hkey (by decide)

/-- Claim C8, amended: for every admissible host collator — any
`cmp : String → String → ℤ` whose induced weak order is transitive and total,
as ECMA-402 requires of `localeCompare` — and every two discovery orders of
the same set of enumerated devices, the published drive list is sorted
ascending by the collator on the rendered `Device` strings; and whenever no
two device names collate as equal, the list is deterministic, independent of
discovery order.  Ascending lexicographic order is obtained exactly on hosts
whose collation coincides with code-point comparison (the `lexCmp`
instance). -/
theorem C8_amended_theorem (cmp : String → String → ℤ)
    (env : JVal → List (Except Unit JVal)) (l₁ l₂ : List JVal)
    (htrans : ∀ s t u, cmp s t ≤ 0 → cmp t u ≤ 0 → cmp s u ≤ 0)
    (htot : ∀ s t, cmp s t ≤ 0 ∨ cmp t s ≤ 0)
    (hperm : l₁.Perm l₂)
    (hdist : l₁.Pairwise (fun a b =>
      ¬(cmp (jsToString (jget a "name")) (jsToString (jget b "name")) ≤ 0 ∧
        cmp (jsToString (jget b "name")) (jsToString (jget a "name")) ≤ 0))) :
    aggregateWith cmp l₁ env = aggregateWith cmp l₂ env ∧
    (aggregateWith cmp l₁ env).Pairwise (fun a b => cmp (sortKey a) (sortKey b) ≤ 0) :=
  ⟨aggregateWith_order_irrelevant cmp htrans htot env hperm hdist,
    aggregateWith_sorted cmp htrans htot l₁ env⟩

/-- Witness for C8's amended theorem at the code-point collator and two
discovery orders of two devices with strictly-comparing names. -/
theorem C8_witness :
    aggregateWith lexCmp [devObj "/dev/sdb", devObj "/dev/sda"] envW =
      aggregateWith lexCmp [devObj "/dev/sda", devObj "/dev/sdb"] envW ∧
    (aggregateWith lexCmp [devObj "/dev/sdb", devObj "/dev/sda"] envW).Pairwise
      (fun a b => lexCmp (sortKey a) (sortKey b) ≤ 0) :=
  C8_amended_theorem lexCmp envW [devObj "/dev/sdb", devObj "/dev/sda"]
    [devObj "/dev/sda", devObj "/dev/sdb"] lexCmp_trans lexCmp_total
    (List.Perm.swap (devObj "/dev/sda") (devObj "/dev/sdb") [])
    (by with_unfolding_all decide)

/-- Claim C9, counterexample.  The claim says that when the diagnostic tool
cannot be invoked or returns unparseable output, enumeration yields an empty
sequence rather than raising; in the code, `scanDevices` has no handler: the
rejected invocation (or the `JSON.parse` throw) propagates, and the whole
cycle of `getAllDriveSummaries` aborts with it. -/
theorem C9_counterexample :
    scanDevices (.error ()) = .error () ∧
    getAllDriveSummaries (.error ()) (fun _ => []) = .error () :=
  ⟨rfl, rfl⟩

/-- Claim C9, amended: enumeration degrades to an empty device list only when
the tool's output parses but carries no `devices` array; an invocation
failure or unparseable output propagates as an exception that aborts the
cycle, while a successful parse always enumerates exactly the `devices`
array. -/
theorem C9_amended_theorem :
    (∀ parsed : JVal, scanDevices (.ok parsed) = .ok (devicesOf parsed)) ∧
    (∀ e : Unit, scanDevices (.error e) = .error e) ∧
    (∀ (env : JVal → List (Except Unit JVal)) (e : Unit),
      getAllDriveSummaries (.error e) env = .error e) ∧
    (∀ (env : JVal → List (Except Unit JVal)) (parsed : JVal),
      getAllDriveSummaries (.ok parsed) env = .ok (aggregate (devicesOf parsed) env)) :=
  ⟨fun _ => rfl, fun _ => rfl, fun _ _ => rfl, fun _ _ => rfl⟩

/-- Claim C10 (confirmed): every record the normalizer produces carries a
`TemperatureC` field equal to `LiveTemperatureC` (the source assigns the same
local to both, though only `LiveTemperatureC` is in the documented wire
contract). -/
theorem C10_theorem (json dev : JVal) (s : Summary)
    (h : summarizeSmart json dev = .ok s) :
    s.TemperatureC = s.LiveTemperatureC := by
  by_cases hn : isStrVal (typeOf json) "nvme" = true
  · rw [summarize_ok_nvme hn h]
    rfl
  · rw [summarize_ok_ata (by simpa using hn) h]
    rfl

/-- Witness for C10 at a concrete payload. -/
theorem C10_witness :
    ∃ s, summarizeSmart okPayload (.str "/dev/sda") = .ok s ∧
      s.TemperatureC = s.LiveTemperatureC := by
  have h : summarizeSmart okPayload (.str "/dev/sda") =
      .ok (ataSummary okPayload (.str "/dev/sda") (tempAmended okPayload) (attrsD okPayload)) := by
    with_unfolding_all rfl
  exact ⟨_, h, C10_theorem okPayload (.str "/dev/sda") _ h⟩
